import Mathlib

/-!
Verification of the order-to-invoice transformation implemented in
src/pretix_FIRA_plugin/signals.py (function handle_order_creation).

Modelling conventions:
* Monetary values are modelled as exact rationals.  The Python source works
  with IEEE doubles; the idealised rational semantics keeps the algebraic
  structure of the computation (sum the unrounded per-line amounts, then
  round each aggregate once) while abstracting from binary representation
  error.  Python's builtin round is round-half-to-even, modelled by rne.
* The defaultdict used by the source, together with Python's
  insertion-ordered dicts, is modelled by an association list in which a
  key is appended on first sight and updated in place afterwards.
* The host platform objects (order, positions, items) are modelled by the
  attributes the handler reads.  meta_data.get of a missing key yields
  Python None, modelled by Option.none; Python truthiness of the FIRAID
  string makes the empty string behave like absence.
* The network call and JSON decoding are modelled by an Except parameter:
  Except.error is a raised transport exception, Except.ok carries the
  status, the parsed JSON object when the body parses (jsonBody), and the
  raw text.  LogEntry.objects.create calls are collected in auditLog in
  creation order; print diagnostics are not part of the audit log.
-/

namespace FiraPlugin

/-- A catalog item as read by the handler: display name, optional internal
name, and the optional FIRAID entry of its meta_data mapping. -/
structure Item where
  name : String
  internalName : Option String
  firaId : Option String
deriving DecidableEq

/-- One purchased position: its (tax-inclusive) price and its item. -/
structure Position where
  price : ℚ
  item : Item
deriving DecidableEq

/-- The order attributes consumed by the handler. -/
structure Order where
  id : Nat
  code : String
  total : ℚ
  positions : List Position
deriving DecidableEq

/-- str(position.item.internal_name or position.item.name): Python `or`
falls through on a falsy internal name (None or the empty string). -/
def displayName (p : Position) : String :=
  match p.item.internalName with
  | some s => if s = "" then p.item.name else s
  | none => p.item.name

/-- The guard `if fira_id and fira_id != '-1'` of the source: the position
takes part in the aggregation exactly when its FIRAID is present, truthy
(non-empty) and distinct from the sentinel "-1".  Returns the identifier
under which it is aggregated, none when it is excluded. -/
def reportableId (p : Position) : Option String :=
  match p.item.firaId with
  | none => none
  | some s => if s = "" ∨ s = "-1" then none else some s

/-- The value stored in items_grouped for one FIRAID:
quantity, price, name (defaultdict default: 0, 0, ""). -/
structure GroupData where
  quantity : Nat
  price : ℚ
  name : String
deriving DecidableEq

/-- The loop body of the source for one position already known to be
reportable: quantity += 1, and price and name are (re)assigned whenever
the stored price equals 0.  The price test is unaffected by the quantity
increment, so the two source statements commute into this form. -/
def bumpGroup (g : GroupData) (p : Position) : GroupData :=
  if g.price = 0 then
    { quantity := g.quantity + 1, price := p.price, name := displayName p }
  else
    { quantity := g.quantity + 1, price := g.price, name := g.name }

/-- defaultdict access items_grouped[fira_id] followed by the loop body:
an existing entry is updated in place, a missing key is appended at the
end with the default value, matching dict insertion order. -/
def updateAssoc (m : List (String × GroupData)) (k : String) (p : Position) :
    List (String × GroupData) :=
  match m with
  | [] => [(k, bumpGroup { quantity := 0, price := 0, name := "" } p)]
  | e :: rest =>
    if e.1 = k then (e.1, bumpGroup e.2 p) :: rest
    else e :: updateAssoc rest k p

/-- One iteration of `for position in order.positions.all()`. -/
def groupStep (m : List (String × GroupData)) (p : Position) :
    List (String × GroupData) :=
  match reportableId p with
  | none => m
  | some k => updateAssoc m k p

/-- The whole grouping loop (source lines 31-37). -/
def groupPositions (ps : List Position) : List (String × GroupData) :=
  ps.foldl groupStep []

/-- One element of the lineItems list sent to FIRA. -/
structure LineItem where
  productCode : String
  lineItemId : String
  quantity : Nat
  price : ℚ
  name : String
  taxRate : ℚ
deriving DecidableEq

/-- The lineItems comprehension (source lines 40-50): one entry per
grouped FIRAID, taxRate the constant 0.05 = 1/20. -/
def buildLineItems (m : List (String × GroupData)) : List LineItem :=
  m.map fun e =>
    { productCode := e.1, lineItemId := e.1, quantity := e.2.quantity,
      price := e.2.price, name := e.2.name, taxRate := 1/20 }

/-- Round-half-to-even to an integer, the semantics of Python round. -/
def rne (q : ℚ) : ℤ :=
  if Int.fract q < 1/2 then ⌊q⌋
  else if Int.fract q = 1/2 then (if ⌊q⌋ % 2 = 0 then ⌊q⌋ else ⌊q⌋ + 1)
  else ⌊q⌋ + 1

/-- round(x, 2) of the source. -/
def round2 (q : ℚ) : ℚ := (rne (q * 100) : ℚ) / 100

/-- One iteration of the accumulation loop of the source (lines 77-82):
item_brutto, item_netto, item_tax for one line item, added onto the
running (total_brutto, total_netto, total_tax). -/
def totalsStep (acc : ℚ × ℚ × ℚ) (item : LineItem) : ℚ × ℚ × ℚ :=
  let itemBrutto := item.price * (item.quantity : ℚ)
  let itemNetto := itemBrutto / (1 + item.taxRate)
  let itemTax := itemBrutto - itemNetto
  (acc.1 + itemBrutto, acc.2.1 + itemNetto, acc.2.2 + itemTax)

/-- The whole accumulation loop, started from (0.0, 0.0, 0.0). -/
def accumulateTotals (items : List LineItem) : ℚ × ℚ × ℚ :=
  items.foldl totalsStep (0, 0, 0)

/-- Totals as sent to FIRA (source lines 73-87): accumulate unrounded,
then round each of brutto, netto, tax once, at the end. -/
def computeTotals (items : List LineItem) : ℚ × ℚ × ℚ :=
  let s := accumulateTotals items
  (round2 s.1, round2 s.2.1, round2 s.2.2)

/-- The reference sum-then-round definition in the words of the spec:
per line grossAmount = unitPrice * quantity,
netAmount = grossAmount / (1 + 0.05), taxAmount = grossAmount - netAmount;
the unrounded per-line amounts are summed and each aggregate is rounded
to 2 decimal places exactly once at the end. -/
def specSumThenRoundTotals (items : List LineItem) : ℚ × ℚ × ℚ :=
  (round2 ((items.map fun i => i.price * (i.quantity : ℚ)).sum),
   round2 ((items.map fun i => i.price * (i.quantity : ℚ) / (1 + 1/20)).sum),
   round2 ((items.map fun i =>
      i.price * (i.quantity : ℚ) - i.price * (i.quantity : ℚ) / (1 + 1/20)).sum))

/-- The HTTP response as seen through the requests library: status code,
the parsed JSON object when response.json() succeeds (a flat
string-to-string object suffices for the fields the handler reads), and
the raw body text. -/
structure HttpResponse where
  status : Nat
  jsonBody : Option (List (String × String))
  text : String
deriving DecidableEq

/-- The outcome classification of one handler invocation. -/
inductive Outcome where
  | skippedZeroTotal : Outcome
  | skippedNoItems : Outcome
  | success (invoiceNumber invoiceFirstNumber businessPremise
      paymentTerminal jir : String) : Outcome
  | rejected (status : Nat) (body : String) : Outcome
  | transportFailure (err : String) : Outcome
deriving DecidableEq

/-- The request payload fields derived by the handler (identification,
the three rounded totals, the line items). -/
structure InvoiceRequest where
  webshopOrderId : Nat
  webshopOrderNumber : String
  brutto : ℚ
  netto : ℚ
  taxValue : ℚ
  lineItems : List LineItem
deriving DecidableEq

/-- What one invocation of the handler produces: the outcome, the
LogEntry action_type strings written to the audit log in order, whether
the outbound POST was attempted, and the request that was (or would have
been) posted. -/
structure HandlerResult where
  outcome : Outcome
  auditLog : List String
  requestSent : Bool
  request : Option InvoiceRequest
deriving DecidableEq

/-- response_data.get(key, default). -/
def getField (obj : List (String × String)) (key dflt : String) : String :=
  match obj.lookup key with
  | some v => v
  | none => dflt

/-- The message of the json.JSONDecodeError raised by response.json() on
an unparseable 200 body; it is caught by the blanket except clause. -/
def jsonDecodeFailureMsg : String := "Expecting value: line 1 column 1 (char 0)"

/-- Shallow embedding of handle_order_creation.  The transport argument
stands for the requests.post call together with response.json(): error e
models a raised exception with message e, ok r a returned response. -/
def handle_order_creation (order : Order) (transport : Except String HttpResponse) :
    HandlerResult :=
  if order.total = 0 then
    { outcome := Outcome.skippedZeroTotal,
      auditLog := ["FIRA invoice not created - order total is 0"],
      requestSent := false, request := none }
  else
    let lineItems := buildLineItems (groupPositions order.positions)
    if lineItems.isEmpty then
      { outcome := Outcome.skippedNoItems, auditLog := [],
        requestSent := false, request := none }
    else
      let totals := computeTotals lineItems
      let req : InvoiceRequest :=
        { webshopOrderId := order.id, webshopOrderNumber := order.code,
          brutto := totals.1, netto := totals.2.1, taxValue := totals.2.2,
          lineItems := lineItems }
      match transport with
      | Except.error e =>
        { outcome := Outcome.transportFailure e,
          auditLog := ["FIRA invoice creation FAILED with exception: " ++ e],
          requestSent := true, request := some req }
      | Except.ok r =>
        if r.status = 200 then
          match r.jsonBody with
          | none =>
            { outcome := Outcome.transportFailure jsonDecodeFailureMsg,
              auditLog := ["FIRA invoice creation FAILED with exception: "
                ++ jsonDecodeFailureMsg],
              requestSent := true, request := some req }
          | some obj =>
            let invoiceFirst := getField obj "invoiceFirstNumber" ""
            let businessPremise := getField obj "businessPremise" ""
            let paymentTerminal := getField obj "paymentTerminal" ""
            let jir := getField obj "jir" "N/A"
            { outcome := Outcome.success (getField obj "invoiceNumber" "Unknown")
                invoiceFirst businessPremise paymentTerminal jir,
              auditLog := ["FIRA fiscalized success, racun number: "
                ++ invoiceFirst ++ "-" ++ businessPremise ++ "-"
                ++ paymentTerminal ++ ", JIR: " ++ jir],
              requestSent := true, request := some req }
        else
          { outcome := Outcome.rejected r.status r.text,
            auditLog := ["FIRA invoice creation FAILED. Status "
              ++ toString r.status ++ ": " ++ r.text],
            requestSent := true, request := some req }

/-- Lookup in the items_grouped association list (dict access by key). -/
def lookupG (k : String) : List (String × GroupData) → Option GroupData
  | [] => none
  | e :: rest => if e.1 = k then some e.2 else lookupG k rest

/-- The aggregated quantity recorded for a FIRAID (0 when the key is
absent from the dict). -/
def quantityOf (k : String) (m : List (String × GroupData)) : Nat :=
  match lookupG k m with
  | some g => g.quantity
  | none => 0

/-- Whether a position is aggregated under the FIRAID k. -/
def mappedTo (k : String) (p : Position) : Bool := reportableId p = some k

/-- Whether a position has a price different from 0 (the value the
source uses as the not-yet-assigned marker for the recorded price). -/
def nonzeroPrice (p : Position) : Bool := p.price ≠ 0

/-- A rational is a whole number of cents: the form every monetary
amount of the host platform (a 2-decimal-place field) takes. -/
def IsCents (q : ℚ) : Prop := ∃ n : ℤ, q = (n : ℚ) / 100

/-! ## Lemmas about the aggregation -/

theorem bumpGroup_quantity (g : GroupData) (p : Position) :
    (bumpGroup g p).quantity = g.quantity + 1 := by
  unfold bumpGroup; split <;> rfl

theorem lookupG_updateAssoc_self (m : List (String × GroupData)) (k : String)
    (p : Position) :
    lookupG k (updateAssoc m k p)
      = some (bumpGroup ((lookupG k m).getD ⟨0, 0, ""⟩) p) := by
  induction m with
  | nil => simp [updateAssoc, lookupG]
  | cons e rest ih =>
    by_cases h : e.1 = k
    · simp [updateAssoc, lookupG, h]
    · simp [updateAssoc, lookupG, h, ih]

theorem lookupG_updateAssoc_ne (m : List (String × GroupData)) (k : String)
    (p : Position) (k1 : String) (h : k1 ≠ k) :
    lookupG k1 (updateAssoc m k p) = lookupG k1 m := by
  induction m with
  | nil => simp [updateAssoc, lookupG, Ne.symm h]
  | cons e rest ih =>
    by_cases he : e.1 = k
    · simp only [updateAssoc, if_pos he]
      by_cases h1 : e.1 = k1
      · exact absurd (h1.symm.trans he) h
      · simp [lookupG, h1]
    · simp only [updateAssoc, if_neg he]
      by_cases h1 : e.1 = k1
      · simp [lookupG, h1]
      · simp [lookupG, h1, ih]

theorem lookupG_groupStep_of_mapped (m : List (String × GroupData))
    (p : Position) (k : String) (h : mappedTo k p = true) :
    lookupG k (groupStep m p)
      = some (bumpGroup ((lookupG k m).getD ⟨0, 0, ""⟩) p) := by
  have hrep : reportableId p = some k := by
    simpa [mappedTo] using h
  simp [groupStep, hrep, lookupG_updateAssoc_self]

theorem lookupG_groupStep_of_not_mapped (m : List (String × GroupData))
    (p : Position) (k : String) (h : mappedTo k p = false) :
    lookupG k (groupStep m p) = lookupG k m := by
  unfold groupStep
  cases hrep : reportableId p with
  | none => rfl
  | some k0 =>
    have hk : k ≠ k0 := by
      intro hc
      rw [mappedTo, hrep, hc] at h
      simp at h
    exact lookupG_updateAssoc_ne m k0 p k hk

theorem quantityOf_foldl (ps : List Position) :
    ∀ (m : List (String × GroupData)) (k : String),
      quantityOf k (ps.foldl groupStep m)
        = quantityOf k m + ps.countP (mappedTo k) := by
  induction ps with
  | nil => intro m k; simp
  | cons p ps ih =>
    intro m k
    rw [List.foldl_cons, ih, List.countP_cons]
    have hstep : quantityOf k (groupStep m p)
        = quantityOf k m + (if mappedTo k p then 1 else 0) := by
      by_cases h : mappedTo k p
      · simp only [quantityOf, lookupG_groupStep_of_mapped m p k h,
          bumpGroup_quantity, if_pos h]
        cases hl : lookupG k m <;> simp [hl]
      · simp only [quantityOf,
          lookupG_groupStep_of_not_mapped m p k (by simpa using h)]
        simp [h]
    rw [hstep]
    by_cases h : mappedTo k p
    · simp only [if_pos h, if_pos h]
      omega
    · simp only [if_neg h, if_neg h]
      omega

theorem quantityOf_groupPositions (ps : List Position) (k : String) :
    quantityOf k (groupPositions ps) = ps.countP (mappedTo k) := by
  have := quantityOf_foldl ps [] k
  simpa [groupPositions, quantityOf, lookupG] using this

theorem keys_updateAssoc (m : List (String × GroupData)) (k : String)
    (p : Position) :
    (updateAssoc m k p).map Prod.fst
      = if k ∈ m.map Prod.fst then m.map Prod.fst
        else m.map Prod.fst ++ [k] := by
  induction m with
  | nil => simp [updateAssoc]
  | cons e rest ih =>
    by_cases he : e.1 = k
    · simp [updateAssoc, he]
    · simp only [updateAssoc, if_neg he, List.map_cons, ih, List.mem_cons]
      by_cases hm : k ∈ rest.map Prod.fst
      · simp [hm, Ne.symm he]
      · simp [hm, Ne.symm he]

theorem nodup_keys_groupStep (m : List (String × GroupData)) (p : Position)
    (h : (m.map Prod.fst).Nodup) :
    ((groupStep m p).map Prod.fst).Nodup := by
  unfold groupStep
  cases reportableId p with
  | none => exact h
  | some k =>
    rw [keys_updateAssoc]
    by_cases hm : k ∈ m.map Prod.fst
    · simpa [hm] using h
    · simp [hm, List.nodup_append, h]

theorem nodup_keys_foldl (ps : List Position) :
    ∀ m : List (String × GroupData), (m.map Prod.fst).Nodup →
      ((ps.foldl groupStep m).map Prod.fst).Nodup := by
  induction ps with
  | nil => intro m h; simpa using h
  | cons p ps ih =>
    intro m h
    rw [List.foldl_cons]
    exact ih _ (nodup_keys_groupStep m p h)

theorem nodup_keys_groupPositions (ps : List Position) :
    ((groupPositions ps).map Prod.fst).Nodup :=
  nodup_keys_foldl ps [] (by simp)

theorem lookupG_of_mem_nodup (m : List (String × GroupData))
    (hnd : (m.map Prod.fst).Nodup) (k : String) (g : GroupData)
    (h : (k, g) ∈ m) : lookupG k m = some g := by
  induction m with
  | nil => cases h
  | cons e rest ih =>
    rw [List.map_cons] at hnd
    have hnd2 := List.nodup_cons.mp hnd
    rcases List.mem_cons.mp h with he | hrest
    · rw [← he]; simp [lookupG]
    · have hk : e.1 ≠ k := by
        intro hc
        exact hnd2.1 (List.mem_map.mpr ⟨(k, g), hrest, hc.symm⟩)
      simp only [lookupG, if_neg hk]
      exact ih hnd2.2 hrest

theorem groupStep_not_reportable (m : List (String × GroupData))
    (p : Position) (h : reportableId p = none) : groupStep m p = m := by
  simp [groupStep, h]

theorem foldl_groupStep_all_unreportable (ps : List Position) :
    ∀ m : List (String × GroupData), (∀ p ∈ ps, reportableId p = none) →
      ps.foldl groupStep m = m := by
  induction ps with
  | nil => intro m _; rfl
  | cons p ps ih =>
    intro m h
    rw [List.foldl_cons,
      groupStep_not_reportable m p (h p (List.mem_cons_self p ps))]
    exact ih m fun q hq => h q (List.mem_cons_of_mem p hq)

theorem groupPositions_skip (l1 l2 : List Position) (p : Position)
    (h : reportableId p = none) :
    groupPositions (l1 ++ p :: l2) = groupPositions (l1 ++ l2) := by
  simp [groupPositions, List.foldl_append, List.foldl_cons,
    groupStep_not_reportable _ p h]

theorem lookupG_foldl_of_some (ps : List Position) :
    ∀ (m : List (String × GroupData)) (k : String) (g : GroupData),
      lookupG k m = some g →
      lookupG k (ps.foldl groupStep m)
        = some ((ps.filter (mappedTo k)).foldl bumpGroup g) := by
  induction ps with
  | nil => intro m k g h; simpa using h
  | cons p ps ih =>
    intro m k g h
    rw [List.foldl_cons, List.filter_cons]
    by_cases hm : mappedTo k p
    · rw [if_pos hm, List.foldl_cons]
      have hstep := lookupG_groupStep_of_mapped m p k hm
      rw [h] at hstep
      exact ih (groupStep m p) k (bumpGroup g p) (by simpa using hstep)
    · rw [if_neg hm]
      have hstep := lookupG_groupStep_of_not_mapped m p k (by simpa using hm)
      exact ih (groupStep m p) k g (hstep.trans h)

theorem lookupG_foldl_of_none (ps : List Position) :
    ∀ (m : List (String × GroupData)) (k : String),
      lookupG k m = none →
      lookupG k (ps.foldl groupStep m)
        = match ps.filter (mappedTo k) with
          | [] => none
          | q :: rs => some (rs.foldl bumpGroup (bumpGroup ⟨0, 0, ""⟩ q)) := by
  induction ps with
  | nil => intro m k h; simpa using h
  | cons p ps ih =>
    intro m k h
    rw [List.foldl_cons, List.filter_cons]
    by_cases hm : mappedTo k p
    · rw [if_pos hm]
      have hstep := lookupG_groupStep_of_mapped m p k hm
      rw [h] at hstep
      exact lookupG_foldl_of_some ps (groupStep m p) k _ (by simpa using hstep)
    · rw [if_neg hm]
      have hstep := lookupG_groupStep_of_not_mapped m p k (by simpa using hm)
      exact (by rw [hstep, h] : lookupG k (groupStep m p) = none) ▸
        ih (groupStep m p) k (hstep.trans h)

theorem foldl_bumpGroup_of_price_ne (rs : List Position) :
    ∀ g : GroupData, g.price ≠ 0 →
      (rs.foldl bumpGroup g).price = g.price
        ∧ (rs.foldl bumpGroup g).name = g.name := by
  induction rs with
  | nil => intro g _; exact ⟨rfl, rfl⟩
  | cons a rs ih =>
    intro g hg
    rw [List.foldl_cons]
    have hb : bumpGroup g a
        = { quantity := g.quantity + 1, price := g.price, name := g.name } := by
      simp [bumpGroup, hg]
    rw [hb]
    exact ih _ hg

theorem foldl_bumpGroup_find (rs : List Position) :
    ∀ (g : GroupData) (q : Position), g.price = 0 →
      rs.find? nonzeroPrice = some q →
      (rs.foldl bumpGroup g).price = q.price
        ∧ (rs.foldl bumpGroup g).name = displayName q := by
  induction rs with
  | nil => intro g q _ hf; cases hf
  | cons a rs ih =>
    intro g q hg hf
    rw [List.foldl_cons]
    have hb : bumpGroup g a
        = { quantity := g.quantity + 1, price := a.price,
            name := displayName a } := by
      simp [bumpGroup, hg]
    by_cases ha : nonzeroPrice a
    · have hqa : q = a := by
        rw [List.find?_cons_of_pos _ ha] at hf
        exact (Option.some.injEq _ _ ▸ hf).symm
      subst hqa
      have hap : q.price ≠ 0 := by simpa [nonzeroPrice] using ha
      rw [hb]
      exact foldl_bumpGroup_of_price_ne rs _ hap
    · have hap : a.price = 0 := by simpa [nonzeroPrice] using ha
      rw [List.find?_cons_of_neg _ ha] at hf
      rw [hb]
      exact ih _ q (by simpa using hap) hf

theorem grouped_price_name_of_find (ps : List Position) (k : String)
    (q : Position)
    (h : (ps.filter (mappedTo k)).find? nonzeroPrice = some q) :
    ∃ g, lookupG k (groupPositions ps) = some g
      ∧ g.price = q.price ∧ g.name = displayName q := by
  have hl := lookupG_foldl_of_none ps [] k rfl
  cases hf : ps.filter (mappedTo k) with
  | nil => rw [hf] at h; cases h
  | cons a rs =>
    rw [hf] at hl h
    refine ⟨_, hl, ?_⟩
    have : (a :: rs).foldl bumpGroup ⟨0, 0, ""⟩
        = rs.foldl bumpGroup (bumpGroup ⟨0, 0, ""⟩ a) := rfl
    rw [← this]
    exact foldl_bumpGroup_find (a :: rs) ⟨0, 0, ""⟩ q rfl h

/-! ## Lemmas about the money calculation -/

theorem map_congr_mem {α β : Type} (l : List α) (f g : α → β)
    (h : ∀ a ∈ l, f a = g a) : l.map f = l.map g := by
  induction l with
  | nil => rfl
  | cons a l ih =>
    rw [List.map_cons, List.map_cons, h a (List.mem_cons_self a l),
      ih fun b hb => h b (List.mem_cons_of_mem a hb)]

theorem sum_map_div {α : Type} (l : List α) (f : α → ℚ) (c : ℚ) :
    (l.map fun a => f a / c).sum = (l.map f).sum / c := by
  induction l with
  | nil => simp
  | cons a l ih => simp [List.sum_cons, ih, add_div]

theorem sum_map_sub {α : Type} (l : List α) (f g : α → ℚ) :
    (l.map fun a => f a - g a).sum = (l.map f).sum - (l.map g).sum := by
  induction l with
  | nil => simp
  | cons a l ih =>
    simp only [List.map_cons, List.sum_cons, ih]
    ring

theorem foldl_totalsStep (items : List LineItem) :
    ∀ a b c : ℚ,
      items.foldl totalsStep (a, b, c)
        = (a + (items.map fun i => i.price * (i.quantity : ℚ)).sum,
           b + (items.map fun i =>
              i.price * (i.quantity : ℚ) / (1 + i.taxRate)).sum,
           c + (items.map fun i =>
              i.price * (i.quantity : ℚ)
                - i.price * (i.quantity : ℚ) / (1 + i.taxRate)).sum) := by
  induction items with
  | nil => intro a b c; simp
  | cons i items ih =>
    intro a b c
    rw [List.foldl_cons]
    show items.foldl totalsStep
        (a + i.price * (i.quantity : ℚ),
         b + i.price * (i.quantity : ℚ) / (1 + i.taxRate),
         c + (i.price * (i.quantity : ℚ)
            - i.price * (i.quantity : ℚ) / (1 + i.taxRate))) = _
    rw [ih]
    simp only [List.map_cons, List.sum_cons]
    refine Prod.ext ?_ (Prod.ext ?_ ?_) <;> simp <;> ring

theorem accumulateTotals_eq (items : List LineItem) :
    accumulateTotals items
      = ((items.map fun i => i.price * (i.quantity : ℚ)).sum,
         (items.map fun i =>
            i.price * (i.quantity : ℚ) / (1 + i.taxRate)).sum,
         (items.map fun i =>
            i.price * (i.quantity : ℚ)
              - i.price * (i.quantity : ℚ) / (1 + i.taxRate)).sum) := by
  have := foldl_totalsStep items 0 0 0
  simpa [accumulateTotals] using this

theorem sum_map_cents (items : List LineItem)
    (h : ∀ i ∈ items, IsCents i.price) :
    ∃ N : ℤ,
      (items.map fun i => i.price * (i.quantity : ℚ)).sum = (N : ℚ) / 100 := by
  induction items with
  | nil => exact ⟨0, by simp⟩
  | cons a items ih =>
    obtain ⟨n, hn⟩ := h a (List.mem_cons_self a items)
    obtain ⟨N, hN⟩ := ih fun i hi => h i (List.mem_cons_of_mem a hi)
    refine ⟨n * (a.quantity : ℤ) + N, ?_⟩
    rw [List.map_cons, List.sum_cons, hn, hN]
    push_cast
    ring

/-! ## Lemmas about rounding -/

theorem rne_intCast (n : ℤ) : rne (n : ℚ) = n := by
  unfold rne
  rw [Int.fract_intCast, Int.floor_intCast]
  norm_num

theorem floor_sub_of_fract_pos (c : ℤ) (t : ℚ) (h : Int.fract t ≠ 0) :
    ⌊(c : ℚ) - t⌋ = c - ⌊t⌋ - 1 := by
  have h0 : 0 < Int.fract t :=
    lt_of_le_of_ne (Int.fract_nonneg t) (Ne.symm h)
  have h1 : Int.fract t < 1 := Int.fract_lt_one t
  have hfl : (⌊t⌋ : ℚ) + Int.fract t = t := Int.floor_add_fract t
  rw [Int.floor_eq_iff]
  constructor
  · push_cast
    linarith
  · push_cast
    linarith

theorem rne_add_compl (c : ℤ) (t : ℚ) (hh : Int.fract t ≠ 1/2) :
    rne t + rne ((c : ℚ) - t) = c := by
  by_cases h0 : Int.fract t = 0
  · have ht : t = (⌊t⌋ : ℚ) := by
      have := Int.floor_add_fract t
      rw [h0] at this
      linarith
    rw [ht, show ((c : ℚ) - (⌊t⌋ : ℚ)) = ((c - ⌊t⌋ : ℤ) : ℚ) by push_cast; ring,
      rne_intCast, rne_intCast]
    omega
  · have hfl := floor_sub_of_fract_pos c t h0
    have hf0 : 0 < Int.fract t :=
      lt_of_le_of_ne (Int.fract_nonneg t) (Ne.symm h0)
    have hf1 : Int.fract t < 1 := Int.fract_lt_one t
    have hfr : Int.fract ((c : ℚ) - t) = 1 - Int.fract t := by
      rw [Int.fract, hfl, Int.fract]
      push_cast
      ring
    rcases lt_or_gt_of_ne hh with hlt | hgt
    · have hA : rne t = ⌊t⌋ := by rw [rne, if_pos hlt]
      have hc1 : ¬ (Int.fract ((c : ℚ) - t) < 1/2) := by rw [hfr]; linarith
      have hc2 : Int.fract ((c : ℚ) - t) ≠ 1/2 := by
        rw [hfr]
        intro hx
        exact hh (by linarith)
      have hB : rne ((c : ℚ) - t) = ⌊(c : ℚ) - t⌋ + 1 := by
        rw [rne, if_neg hc1, if_neg hc2]
      rw [hA, hB, hfl]
      omega
    · have hc0 : ¬ (Int.fract t < 1/2) := by linarith
      have hA : rne t = ⌊t⌋ + 1 := by rw [rne, if_neg hc0, if_neg hh]
      have hc1 : Int.fract ((c : ℚ) - t) < 1/2 := by rw [hfr]; linarith
      have hB : rne ((c : ℚ) - t) = ⌊(c : ℚ) - t⌋ := by rw [rne, if_pos hc1]
      rw [hA, hB, hfl]
      omega

theorem fract_div_21_ne_half (n : ℤ) : Int.fract ((n : ℚ) / 21) ≠ 1/2 := by
  intro h
  have hf : (n : ℚ) / 21 - (⌊(n : ℚ) / 21⌋ : ℚ) = 1/2 := by
    rw [← Int.fract]
    exact h
  set m := ⌊(n : ℚ) / 21⌋ with hm
  have hq : (2 * n : ℚ) = 42 * (m : ℚ) + 21 := by
    field_simp at hf
    linarith
  have hz : (2 * n : ℤ) = 42 * m + 21 := by exact_mod_cast hq
  omega

theorem totals_reconcile (N : ℤ) :
    round2 ((N : ℚ) / 100)
      = round2 (((N : ℚ) / 100) / (1 + 1/20))
        + round2 ((N : ℚ) / 100 - ((N : ℚ) / 100) / (1 + 1/20)) := by
  have e1 : ((N : ℚ) / 100) * 100 = (N : ℚ) := by field_simp
  have e2 : (((N : ℚ) / 100) / (1 + 1/20)) * 100 = (N : ℚ) - (N : ℚ) / 21 := by
    field_simp
    ring
  have e3 : ((N : ℚ) / 100 - ((N : ℚ) / 100) / (1 + 1/20)) * 100
      = (N : ℚ) / 21 := by
    field_simp
    ring
  unfold round2
  rw [e1, e2, e3, rne_intCast]
  have key := rne_add_compl N ((N : ℚ) / 21) (fract_div_21_ne_half N)
  have key2 : ((rne ((N : ℚ) / 21) : ℤ) : ℚ)
      + ((rne ((N : ℚ) - (N : ℚ) / 21) : ℤ) : ℚ) = (N : ℚ) := by
    exact_mod_cast key
  rw [div_add_div_same]
  rw [show ((rne ((N : ℚ) - (N : ℚ) / 21) : ℤ) : ℚ)
        + ((rne ((N : ℚ) / 21) : ℤ) : ℚ) = (N : ℚ) by linarith]

/-! ## Cent-valued prices propagate into the line items -/

theorem mem_updateAssoc_price (m : List (String × GroupData)) (k : String)
    (p : Position) :
    ∀ e ∈ updateAssoc m k p,
      (∃ e0 ∈ m, e.2.price = e0.2.price) ∨ e.2.price = p.price := by
  induction m with
  | nil =>
    intro e he
    simp only [updateAssoc, List.mem_singleton] at he
    right
    rw [he]
    simp [bumpGroup]
  | cons e0 rest ih =>
    intro e he
    by_cases h : e0.1 = k
    · rw [updateAssoc, if_pos h] at he
      rcases List.mem_cons.mp he with hh | ht
      · by_cases hz : e0.2.price = 0
        · right
          rw [hh]
          simp [bumpGroup, hz]
        · left
          exact ⟨e0, List.mem_cons_self e0 rest, by rw [hh]; simp [bumpGroup, hz]⟩
      · left
        exact ⟨e, List.mem_cons_of_mem e0 ht, rfl⟩
    · rw [updateAssoc, if_neg h] at he
      rcases List.mem_cons.mp he with hh | ht
      · left
        exact ⟨e0, List.mem_cons_self e0 rest, by rw [hh]⟩
      · rcases ih e ht with ⟨e1, he1, hp⟩ | hp
        · exact Or.inl ⟨e1, List.mem_cons_of_mem e0 he1, hp⟩
        · exact Or.inr hp

theorem group_prices_cents (ps : List Position) :
    ∀ m : List (String × GroupData),
      (∀ e ∈ m, IsCents e.2.price) → (∀ p ∈ ps, IsCents p.price) →
      ∀ e ∈ ps.foldl groupStep m, IsCents e.2.price := by
  induction ps with
  | nil => intro m hm _ e he; exact hm e he
  | cons p ps ih =>
    intro m hm hp e he
    rw [List.foldl_cons] at he
    refine ih (groupStep m p) ?_ (fun q hq => hp q (List.mem_cons_of_mem p hq)) e he
    intro e1 he1
    unfold groupStep at he1
    cases hrep : reportableId p with
    | none => exact hm e1 (by rwa [hrep] at he1)
    | some k =>
      rw [hrep] at he1
      rcases mem_updateAssoc_price m k p e1 he1 with ⟨e0, he0, hpr⟩ | hpr
      · rw [hpr]; exact hm e0 he0
      · rw [hpr]; exact hp p (List.mem_cons_self p ps)

theorem lineItems_price_cents (ps : List Position)
    (hp : ∀ p ∈ ps, IsCents p.price) :
    ∀ i ∈ buildLineItems (groupPositions ps), IsCents i.price := by
  intro i hi
  rw [buildLineItems, List.mem_map] at hi
  obtain ⟨e, he, rfl⟩ := hi
  exact group_prices_cents ps [] (by simp) hp e he

theorem buildLineItems_taxRate (m : List (String × GroupData)) :
    ∀ i ∈ buildLineItems m, i.taxRate = 1/20 := by
  intro i hi
  rw [buildLineItems, List.mem_map] at hi
  obtain ⟨e, _, rfl⟩ := hi
  rfl

theorem computeTotals_reconciles (items : List LineItem)
    (htax : ∀ i ∈ items, i.taxRate = 1/20)
    (hcents : ∀ i ∈ items, IsCents i.price) :
    (computeTotals items).1
      = (computeTotals items).2.1 + (computeTotals items).2.2 := by
  obtain ⟨N, hN⟩ := sum_map_cents items hcents
  have h2 : (items.map fun i =>
        i.price * (i.quantity : ℚ) / (1 + i.taxRate)).sum
      = (items.map fun i => i.price * (i.quantity : ℚ)).sum / (1 + 1/20) := by
    rw [map_congr_mem items _
        (fun i => i.price * (i.quantity : ℚ) / (1 + 1/20))
        (fun i hi => by rw [htax i hi]),
      sum_map_div]
  have h3 : (items.map fun i =>
        i.price * (i.quantity : ℚ)
          - i.price * (i.quantity : ℚ) / (1 + i.taxRate)).sum
      = (items.map fun i => i.price * (i.quantity : ℚ)).sum
        - (items.map fun i => i.price * (i.quantity : ℚ)).sum / (1 + 1/20) := by
    rw [map_congr_mem items _
        (fun i => i.price * (i.quantity : ℚ)
          - i.price * (i.quantity : ℚ) / (1 + 1/20))
        (fun i hi => by rw [htax i hi]),
      sum_map_sub, sum_map_div]
  simp only [computeTotals, accumulateTotals_eq]
  rw [h2, h3, hN]
  exact totals_reconcile N

/-! ## The claims -/

/-- C1: for every order (cent-valued position prices, as every monetary
amount of the host platform is a 2-decimal-place quantity) with at least
one fiscally-reportable position, the three independently rounded invoice
totals reconcile exactly: brutto = netto + taxValue after rounding. -/
theorem invoice_totals_reconcile (ps : List Position)
    (hcents : ∀ p ∈ ps, IsCents p.price)
    (_hrep : ∃ p ∈ ps, (reportableId p).isSome) :
    (computeTotals (buildLineItems (groupPositions ps))).1
      = (computeTotals (buildLineItems (groupPositions ps))).2.1
        + (computeTotals (buildLineItems (groupPositions ps))).2.2 :=
  computeTotals_reconciles _ (buildLineItems_taxRate _)
    (lineItems_price_cents ps hcents)

/-- Witness for C1: the spec's round-trip scenario, two positions with
FIRAID "A" and price 10.00 each; brutto 20.00 = netto 19.05 + tax 0.95. -/
theorem invoice_totals_reconcile_witness :
    (∀ p ∈ ([⟨10, ⟨"Ticket", none, some "A"⟩⟩,
        ⟨10, ⟨"Ticket", none, some "A"⟩⟩] : List Position), IsCents p.price) ∧
    (∃ p ∈ ([⟨10, ⟨"Ticket", none, some "A"⟩⟩,
        ⟨10, ⟨"Ticket", none, some "A"⟩⟩] : List Position),
      (reportableId p).isSome) ∧
    (computeTotals (buildLineItems (groupPositions
        [⟨10, ⟨"Ticket", none, some "A"⟩⟩,
         ⟨10, ⟨"Ticket", none, some "A"⟩⟩]))).1
      = (computeTotals (buildLineItems (groupPositions
          [⟨10, ⟨"Ticket", none, some "A"⟩⟩,
           ⟨10, ⟨"Ticket", none, some "A"⟩⟩]))).2.1
        + (computeTotals (buildLineItems (groupPositions
            [⟨10, ⟨"Ticket", none, some "A"⟩⟩,
             ⟨10, ⟨"Ticket", none, some "A"⟩⟩]))).2.2 := by
  have h1 : ∀ p ∈ ([⟨10, ⟨"Ticket", none, some "A"⟩⟩,
      ⟨10, ⟨"Ticket", none, some "A"⟩⟩] : List Position), IsCents p.price := by
    intro p hp
    simp only [List.mem_cons, List.not_mem_nil, or_false] at hp
    rcases hp with rfl | rfl <;> exact ⟨1000, by norm_num⟩
  have h2 : ∃ p ∈ ([⟨10, ⟨"Ticket", none, some "A"⟩⟩,
      ⟨10, ⟨"Ticket", none, some "A"⟩⟩] : List Position),
      (reportableId p).isSome :=
    ⟨⟨10, ⟨"Ticket", none, some "A"⟩⟩, by simp, by decide⟩
  exact ⟨h1, h2, invoice_totals_reconcile _ h1 h2⟩

/-- C2: the totals the handler computes for its line items coincide with
the spec's sum-then-round reference definition: per-line gross, net and
tax amounts left unrounded, summed across the lines, each aggregate
rounded to 2 decimal places exactly once at the end. -/
theorem totals_match_sum_then_round (m : List (String × GroupData)) :
    computeTotals (buildLineItems m)
      = specSumThenRoundTotals (buildLineItems m) := by
  have h2 := map_congr_mem (buildLineItems m)
    (fun i => i.price * (i.quantity : ℚ) / (1 + i.taxRate))
    (fun i => i.price * (i.quantity : ℚ) / (1 + 1/20))
    (fun i hi => by simp only [buildLineItems_taxRate m i hi])
  have h3 := map_congr_mem (buildLineItems m)
    (fun i => i.price * (i.quantity : ℚ)
      - i.price * (i.quantity : ℚ) / (1 + i.taxRate))
    (fun i => i.price * (i.quantity : ℚ)
      - i.price * (i.quantity : ℚ) / (1 + 1/20))
    (fun i hi => by simp only [buildLineItems_taxRate m i hi])
  simp only [computeTotals, accumulateTotals_eq, specSumThenRoundTotals]
  rw [h2, h3]

/-- C3 counterexample: two positions share FIRAID "A"; the first has
price 0 and name "First", the second price 5 and name "Second".  The
recorded price and name are those of the SECOND position, because the
source re-assigns price and name whenever the stored price is still 0;
so the claim that the first position encountered always supplies price
and name, later ones only quantity, fails at this input. -/
theorem first_position_price_cex :
    lookupG "A" (groupPositions
        [⟨0, ⟨"First", none, some "A"⟩⟩, ⟨5, ⟨"Second", none, some "A"⟩⟩])
      = some ⟨2, 5, "Second"⟩ ∧
    (⟨0, ⟨"First", none, some "A"⟩⟩ : Position).price = 0 ∧
    displayName ⟨0, ⟨"First", none, some "A"⟩⟩ = "First" ∧
    (5 : ℚ) ≠ (0 : ℚ) ∧ "Second" ≠ "First" := by
  refine ⟨by decide, rfl, rfl, by norm_num, by decide⟩

/-- C3 (amended): the unit price and display name recorded for a fiscal
product identifier are those of the first position encountered with that
identifier whose price is nonzero; positions processed while the
recorded price is still 0 may overwrite price and name, and once a
nonzero price is recorded subsequent positions change only quantity. -/
theorem first_nonzero_position_price (ps : List Position) (k : String)
    (q : Position)
    (h : (ps.filter (mappedTo k)).find? nonzeroPrice = some q) :
    ∃ g, lookupG k (groupPositions ps) = some g
      ∧ g.price = q.price ∧ g.name = displayName q :=
  grouped_price_name_of_find ps k q h

/-- Witness for C3 (amended): in the counterexample order the first
nonzero-priced position with FIRAID "A" is the second one, and its price
and name are the recorded ones. -/
theorem first_nonzero_position_price_witness :
    (([⟨0, ⟨"First", none, some "A"⟩⟩, ⟨5, ⟨"Second", none, some "A"⟩⟩]
        : List Position).filter (mappedTo "A")).find? nonzeroPrice
      = some ⟨5, ⟨"Second", none, some "A"⟩⟩ ∧
    (∃ g, lookupG "A" (groupPositions
          [⟨0, ⟨"First", none, some "A"⟩⟩, ⟨5, ⟨"Second", none, some "A"⟩⟩])
        = some g
      ∧ g.price = (⟨5, ⟨"Second", none, some "A"⟩⟩ : Position).price
      ∧ g.name = displayName ⟨5, ⟨"Second", none, some "A"⟩⟩) := by
  have h : (([⟨0, ⟨"First", none, some "A"⟩⟩, ⟨5, ⟨"Second", none, some "A"⟩⟩]
      : List Position).filter (mappedTo "A")).find? nonzeroPrice
      = some ⟨5, ⟨"Second", none, some "A"⟩⟩ := by decide
  exact ⟨h, first_nonzero_position_price _ _ _ h⟩

/-- C4: the aggregation yields at most one line item per distinct FIRAID
(the product codes are pairwise distinct), the quantity of each line item
equals the number of positions mapped to its FIRAID, and a position whose
FIRAID is excluded (absent or sentinel, reportableId none) contributes
nothing: deleting it from the order leaves the aggregation unchanged. -/
theorem aggregation_invariants (ps : List Position) :
    ((buildLineItems (groupPositions ps)).map (fun i => i.productCode)).Nodup ∧
    (∀ i ∈ buildLineItems (groupPositions ps),
      i.quantity = ps.countP (mappedTo i.productCode)) ∧
    (∀ (l1 l2 : List Position) (p : Position), reportableId p = none →
      groupPositions (l1 ++ p :: l2) = groupPositions (l1 ++ l2)) := by
  refine ⟨?_, ?_, fun l1 l2 p h => groupPositions_skip l1 l2 p h⟩
  · have hkeys : (buildLineItems (groupPositions ps)).map (fun i => i.productCode)
        = (groupPositions ps).map Prod.fst := by
      rw [buildLineItems, List.map_map]
      rfl
    rw [hkeys]
    exact nodup_keys_groupPositions ps
  · intro i hi
    rw [buildLineItems, List.mem_map] at hi
    obtain ⟨e, he, rfl⟩ := hi
    have hl : lookupG e.1 (groupPositions ps) = some e.2 :=
      lookupG_of_mem_nodup _ (nodup_keys_groupPositions ps) e.1 e.2
        (by simpa using he)
    have hq := quantityOf_groupPositions ps e.1
    rw [quantityOf, hl] at hq
    exact hq

/-- Witness for C4: an order with one reportable position (FIRAID "A")
and one excluded position (no FIRAID). -/
theorem aggregation_invariants_witness :
    reportableId (⟨3, ⟨"Don", none, none⟩⟩ : Position) = none ∧
    ((buildLineItems (groupPositions
        [⟨5, ⟨"Tkt", none, some "A"⟩⟩, ⟨3, ⟨"Don", none, none⟩⟩])).map
      (fun i => i.productCode)).Nodup ∧
    (∀ i ∈ buildLineItems (groupPositions
        [⟨5, ⟨"Tkt", none, some "A"⟩⟩, ⟨3, ⟨"Don", none, none⟩⟩]),
      i.quantity = ([⟨5, ⟨"Tkt", none, some "A"⟩⟩,
        ⟨3, ⟨"Don", none, none⟩⟩] : List Position).countP
          (mappedTo i.productCode)) ∧
    groupPositions ([⟨5, ⟨"Tkt", none, some "A"⟩⟩]
        ++ (⟨3, ⟨"Don", none, none⟩⟩ : Position) :: [])
      = groupPositions ([⟨5, ⟨"Tkt", none, some "A"⟩⟩] ++ []) :=
  ⟨rfl,
   (aggregation_invariants
     [⟨5, ⟨"Tkt", none, some "A"⟩⟩, ⟨3, ⟨"Don", none, none⟩⟩]).1,
   (aggregation_invariants
     [⟨5, ⟨"Tkt", none, some "A"⟩⟩, ⟨3, ⟨"Don", none, none⟩⟩]).2.1,
   (aggregation_invariants
     [⟨5, ⟨"Tkt", none, some "A"⟩⟩, ⟨3, ⟨"Don", none, none⟩⟩]).2.2
     [⟨5, ⟨"Tkt", none, some "A"⟩⟩] [] _ rfl⟩

/-- C9 counterexample: within a single input ordering the price/name
parenthetical of the claim fails: the first position for FIRAID "B" has
price 0 and name "BetaOne", yet the recorded line carries price 7 and
name "BetaTwo" from the second position. -/
theorem quantity_order_independent_cex :
    lookupG "B" (groupPositions
        [⟨0, ⟨"BetaOne", none, some "B"⟩⟩, ⟨7, ⟨"BetaTwo", none, some "B"⟩⟩])
      = some ⟨2, 7, "BetaTwo"⟩ ∧
    (⟨0, ⟨"BetaOne", none, some "B"⟩⟩ : Position).price = 0 ∧
    displayName ⟨0, ⟨"BetaOne", none, some "B"⟩⟩ = "BetaOne" ∧
    "BetaTwo" ≠ "BetaOne" := by
  refine ⟨by decide, rfl, rfl, by decide⟩

/-- C9 (amended): regrouping any permutation of the position set yields
the same quantity per fiscal identifier; the price/name recorded for an
identifier is that of the first position for it with nonzero price in
the given input ordering. -/
theorem quantity_order_independent (ps qs : List Position)
    (hperm : ps.Perm qs) :
    (∀ k, quantityOf k (groupPositions ps)
      = quantityOf k (groupPositions qs)) ∧
    (∀ (k : String) (q : Position),
      (ps.filter (mappedTo k)).find? nonzeroPrice = some q →
      ∃ g, lookupG k (groupPositions ps) = some g
        ∧ g.price = q.price ∧ g.name = displayName q) := by
  refine ⟨?_, fun k q h => grouped_price_name_of_find ps k q h⟩
  intro k
  rw [quantityOf_groupPositions, quantityOf_groupPositions]
  exact hperm.countP_eq (mappedTo k)

/-- Witness for C9 (amended): swapping two positions with FIRAID "A"
leaves the quantity recorded for "A" unchanged, and the nonzero-priced
first position supplies price and name. -/
theorem quantity_order_independent_witness :
    ([⟨4, ⟨"P", none, some "A"⟩⟩, ⟨6, ⟨"Q", none, some "A"⟩⟩]
        : List Position).Perm
      [⟨6, ⟨"Q", none, some "A"⟩⟩, ⟨4, ⟨"P", none, some "A"⟩⟩] ∧
    quantityOf "A" (groupPositions
        [⟨4, ⟨"P", none, some "A"⟩⟩, ⟨6, ⟨"Q", none, some "A"⟩⟩])
      = quantityOf "A" (groupPositions
        [⟨6, ⟨"Q", none, some "A"⟩⟩, ⟨4, ⟨"P", none, some "A"⟩⟩]) ∧
    (([⟨4, ⟨"P", none, some "A"⟩⟩, ⟨6, ⟨"Q", none, some "A"⟩⟩]
        : List Position).filter (mappedTo "A")).find? nonzeroPrice
      = some ⟨4, ⟨"P", none, some "A"⟩⟩ ∧
    (∃ g, lookupG "A" (groupPositions
          [⟨4, ⟨"P", none, some "A"⟩⟩, ⟨6, ⟨"Q", none, some "A"⟩⟩])
        = some g
      ∧ g.price = (⟨4, ⟨"P", none, some "A"⟩⟩ : Position).price
      ∧ g.name = displayName ⟨4, ⟨"P", none, some "A"⟩⟩) := by
  have hp : ([⟨4, ⟨"P", none, some "A"⟩⟩, ⟨6, ⟨"Q", none, some "A"⟩⟩]
      : List Position).Perm
      [⟨6, ⟨"Q", none, some "A"⟩⟩, ⟨4, ⟨"P", none, some "A"⟩⟩] :=
    List.Perm.swap _ _ _
  have hf : (([⟨4, ⟨"P", none, some "A"⟩⟩, ⟨6, ⟨"Q", none, some "A"⟩⟩]
      : List Position).filter (mappedTo "A")).find? nonzeroPrice
      = some ⟨4, ⟨"P", none, some "A"⟩⟩ := by decide
  exact ⟨hp, (quantity_order_independent _ _ hp).1 "A", hf,
    (quantity_order_independent _ _ hp).2 "A" _ hf⟩

/-- C10 (implicit behaviour of the truthiness test): a position whose
FIRAID is present but equal to the empty string is excluded from the
aggregation exactly as if the identifier were absent. -/
theorem empty_firaId_excluded (l1 l2 : List Position) (pr : ℚ) (nm : String)
    (inm : Option String) :
    groupPositions (l1 ++ (⟨pr, ⟨nm, inm, some ""⟩⟩ : Position) :: l2)
      = groupPositions (l1 ++ l2) ∧
    groupPositions (l1 ++ (⟨pr, ⟨nm, inm, some ""⟩⟩ : Position) :: l2)
      = groupPositions (l1 ++ (⟨pr, ⟨nm, inm, none⟩⟩ : Position) :: l2) := by
  have h1 : reportableId (⟨pr, ⟨nm, inm, some ""⟩⟩ : Position) = none := by
    simp [reportableId]
  have h2 : reportableId (⟨pr, ⟨nm, inm, none⟩⟩ : Position) = none := rfl
  exact ⟨groupPositions_skip l1 l2 _ h1,
    (groupPositions_skip l1 l2 _ h1).trans
      (groupPositions_skip l1 l2 _ h2).symm⟩

/-- C5 counterexample: an order with nonzero total whose only position
has no FIRAID takes the no-reportable-items path, which returns normally
with a Skipped outcome but writes NO audit-log entry (the source only
prints and returns there, with no LogEntry.objects.create), refuting the
claim that every path writes an Outcome Record to the audit log. -/
theorem every_path_audited_cex :
    (handle_order_creation ⟨1, "ORD1", 10, [⟨5, ⟨"Donation", none, none⟩⟩]⟩
        (Except.ok ⟨200, some [], ""⟩)).outcome = Outcome.skippedNoItems ∧
    (handle_order_creation ⟨1, "ORD1", 10, [⟨5, ⟨"Donation", none, none⟩⟩]⟩
        (Except.ok ⟨200, some [], ""⟩)).auditLog = [] := by
  decide

/-- C5 (amended): every invocation of the handler returns normally with
an outcome (the model is a total function), and every path writes exactly
one audit-log entry EXCEPT the no-reportable-items skip, which writes
none (it emits only a diagnostic print). -/
theorem every_path_audited (o : Order) (t : Except String HttpResponse) :
    (handle_order_creation o t).auditLog.length
      = (if (handle_order_creation o t).outcome = Outcome.skippedNoItems
         then 0 else 1) := by
  unfold handle_order_creation
  by_cases h0 : o.total = 0
  · simp [h0]
  · rw [if_neg h0]
    by_cases hempty : (buildLineItems (groupPositions o.positions)).isEmpty
    · simp [hempty]
    · rcases t with e | r
      · simp [hempty]
      · by_cases hs : r.status = 200
        · rcases hb : r.jsonBody with _ | obj <;> simp [hempty, hs, hb]
        · simp [hempty, hs]

/-- C6: an order whose total is zero is skipped immediately: the outcome
is the zero-total skip, one audit-log entry records the reason, no
outbound request is made, and the result is the same constant whatever
the positions or the transport behave like, i.e. no aggregation or money
calculation influences it. -/
theorem zero_total_skips (o : Order) (t : Except String HttpResponse)
    (h : o.total = 0) :
    handle_order_creation o t
      = { outcome := Outcome.skippedZeroTotal,
          auditLog := ["FIRA invoice not created - order total is 0"],
          requestSent := false, request := none } := by
  unfold handle_order_creation
  rw [if_pos h]

/-- Witness for C6: a free order with a reportable position and a failing
transport still produces exactly the zero-total skip record. -/
theorem zero_total_skips_witness :
    (⟨7, "FREE1", 0, [⟨0, ⟨"Tkt", none, some "A"⟩⟩]⟩ : Order).total = 0 ∧
    handle_order_creation ⟨7, "FREE1", 0, [⟨0, ⟨"Tkt", none, some "A"⟩⟩]⟩
        (Except.error "connection refused")
      = { outcome := Outcome.skippedZeroTotal,
          auditLog := ["FIRA invoice not created - order total is 0"],
          requestSent := false, request := none } :=
  ⟨rfl, zero_total_skips _ _ rfl⟩

/-- C7: an order with nonzero total all of whose positions are excluded
(FIRAID absent, empty, or the sentinel "-1") yields the
no-reportable-items skip — an outcome distinct from the zero-total skip —
and no outbound request is made. -/
theorem no_reportable_items_skips (o : Order) (t : Except String HttpResponse)
    (h0 : ¬ o.total = 0) (h : ∀ p ∈ o.positions, reportableId p = none) :
    handle_order_creation o t
      = { outcome := Outcome.skippedNoItems, auditLog := [],
          requestSent := false, request := none }
      ∧ Outcome.skippedNoItems ≠ Outcome.skippedZeroTotal := by
  have hg : groupPositions o.positions = [] :=
    foldl_groupStep_all_unreportable o.positions [] h
  refine ⟨?_, by decide⟩
  unfold handle_order_creation
  rw [if_neg h0]
  simp [hg, buildLineItems]

/-- Witness for C7: a paid order whose three positions carry no FIRAID,
the sentinel "-1", and the empty string respectively. -/
theorem no_reportable_items_skips_witness :
    ¬ (⟨2, "ORD2", 10, [⟨5, ⟨"A", none, none⟩⟩, ⟨5, ⟨"B", none, some "-1"⟩⟩,
        ⟨5, ⟨"C", none, some ""⟩⟩]⟩ : Order).total = 0 ∧
    (∀ p ∈ (⟨2, "ORD2", 10, [⟨5, ⟨"A", none, none⟩⟩,
        ⟨5, ⟨"B", none, some "-1"⟩⟩, ⟨5, ⟨"C", none, some ""⟩⟩]⟩
          : Order).positions,
      reportableId p = none) ∧
    handle_order_creation ⟨2, "ORD2", 10, [⟨5, ⟨"A", none, none⟩⟩,
        ⟨5, ⟨"B", none, some "-1"⟩⟩, ⟨5, ⟨"C", none, some ""⟩⟩]⟩
        (Except.ok ⟨200, some [], ""⟩)
      = { outcome := Outcome.skippedNoItems, auditLog := [],
          requestSent := false, request := none } :=
  ⟨by decide, by decide,
   (no_reportable_items_skips _ _ (by decide) (by decide)).1⟩

/-- C8: on a 200 response whose JSON body parses, the handler (reaching
the submission step: nonzero total, at least one line item) classifies
the outcome as Success without raising, and every one of the five
optional fields that is absent from the body is replaced by its
placeholder default: "Unknown" for invoiceNumber, "" for
invoiceFirstNumber, businessPremise and paymentTerminal, "N/A" for jir. -/
theorem success_missing_fields_default (o : Order) (r : HttpResponse)
    (obj : List (String × String))
    (h0 : ¬ o.total = 0)
    (hne : (buildLineItems (groupPositions o.positions)).isEmpty = false)
    (hs : r.status = 200) (hb : r.jsonBody = some obj) :
    ∃ inv fir bus ter jir,
      (handle_order_creation o (Except.ok r)).outcome
        = Outcome.success inv fir bus ter jir ∧
      (obj.lookup "invoiceNumber" = none → inv = "Unknown") ∧
      (obj.lookup "invoiceFirstNumber" = none → fir = "") ∧
      (obj.lookup "businessPremise" = none → bus = "") ∧
      (obj.lookup "paymentTerminal" = none → ter = "") ∧
      (obj.lookup "jir" = none → jir = "N/A") := by
  refine ⟨getField obj "invoiceNumber" "Unknown",
    getField obj "invoiceFirstNumber" "", getField obj "businessPremise" "",
    getField obj "paymentTerminal" "", getField obj "jir" "N/A",
    ?_, ?_, ?_, ?_, ?_, ?_⟩
  · unfold handle_order_creation
    rw [if_neg h0]
    simp [hne, hs, hb]
  all_goals intro hnone
  all_goals simp [getField, hnone]

/-- Witness for C8: the spec's scenario, a 200 response whose body is the
single-field object invoiceNumber = "X1". -/
theorem success_missing_fields_default_witness :
    ¬ (⟨3, "ORD3", 21, [⟨21, ⟨"Tkt", none, some "A"⟩⟩]⟩ : Order).total = 0 ∧
    (buildLineItems (groupPositions
        (⟨3, "ORD3", 21, [⟨21, ⟨"Tkt", none, some "A"⟩⟩]⟩
          : Order).positions)).isEmpty = false ∧
    (⟨200, some [("invoiceNumber", "X1")], ""⟩ : HttpResponse).status = 200 ∧
    (⟨200, some [("invoiceNumber", "X1")], ""⟩ : HttpResponse).jsonBody
      = some [("invoiceNumber", "X1")] ∧
    (∃ inv fir bus ter jir,
      (handle_order_creation ⟨3, "ORD3", 21, [⟨21, ⟨"Tkt", none, some "A"⟩⟩]⟩
          (Except.ok ⟨200, some [("invoiceNumber", "X1")], ""⟩)).outcome
        = Outcome.success inv fir bus ter jir ∧
      ([("invoiceNumber", "X1")].lookup "invoiceNumber" = none →
        inv = "Unknown") ∧
      ([("invoiceNumber", "X1")].lookup "invoiceFirstNumber" = none →
        fir = "") ∧
      ([("invoiceNumber", "X1")].lookup "businessPremise" = none →
        bus = "") ∧
      ([("invoiceNumber", "X1")].lookup "paymentTerminal" = none →
        ter = "") ∧
      ([("invoiceNumber", "X1")].lookup "jir" = none → jir = "N/A")) :=
  ⟨by decide, by decide, rfl, rfl,
   success_missing_fields_default _ _ _ (by decide) (by decide) rfl rfl⟩

end FiraPlugin
